import Mathlib

/-!
Shallow embedding of `cmost_analysis.py` (`standard_analysis_products` and its
helpers) together with proofs about the measurement-extraction pipeline:
directory scanning, frame reduction (numpy median semantics), the bias / dark /
flat analyzers, the PTC fit step, and the in-place gain conversion of the
measurement dictionaries.

Pixel values and measurement values are modelled as elements of a linear
ordered field (instantiated at `ℚ` where concrete evaluation is wanted and at
`ℝ` where `np.sqrt` forces real arithmetic).  Python dictionaries are modelled
as functions `String → Option β`; dictionary assignment is `setKey`.  Fallible
numpy operations (`max`/`min` of an empty sequence, `np.where(...)[0][0]` on an
empty index list) are modelled in `Except String`.
-/

namespace CmostAnalysis

/-- Dictionary assignment `d[key] = v` for a Python dict modelled as
`String → Option β`. -/
def setKey {β : Type} (d : String → Option β) (key : String) (v : β) :
    String → Option β :=
  fun s => if s = key then some v else d s

/-- Model of `np.median` on a one-dimensional array (`np.median(a)` for a
flattened array): sort the values; for odd length take the middle element, for
even length take the average of the two middle elements. -/
def npMedian {α : Type} [LinearOrderedField α] (l : List α) : α :=
  if l.length % 2 = 1 then
    (l.mergeSort (fun a b => decide (a ≤ b))).getD (l.length / 2) 0
  else
    ((l.mergeSort (fun a b => decide (a ≤ b))).getD (l.length / 2 - 1) 0 +
     (l.mergeSort (fun a b => decide (a ≤ b))).getD (l.length / 2) 0) / 2

/-- The values at pixel index `i` across a stack of (flattened) frames; for a
rectangular stack whose frames all have length `> i` this is the `i`-th column
of the stack. -/
def pixelColumn {α : Type} (stack : List (List α)) (i : Nat) : List α :=
  stack.filterMap (fun f => f[i]?)

/-- Model of `np.median(stack, axis=0)`: the elementwise median across a
(rectangular, as used in the source) stack of frames. -/
def medianStack {α : Type} [LinearOrderedField α] (stack : List (List α)) :
    List α :=
  (List.range (stack.head?.getD []).length).map (fun i => npMedian (pixelColumn stack i))

/-! ## Condition scanner and report skeleton (lines 34-95, 372-402) -/

/-- Does `sub` occur at the start of `l`?  Helper for the Python substring
test. -/
def subAt : List Char → List Char → Bool
  | [], _ => true
  | _ :: _, [] => false
  | a :: as, b :: bs => a == b && subAt as bs

/-- Does `sub` occur anywhere inside `l`? -/
def subIn (sub : List Char) : List Char → Bool
  | [] => sub.isEmpty
  | b :: bs => subAt sub (b :: bs) || subIn sub bs

/-- Python's substring containment test `sub in s` on strings. -/
def containsSub (sub s : String) : Bool := subIn sub.toList s.toList

/-- The flags set by the file scan at lines 49-53: a condition type is present
when some filename contains the corresponding substring. -/
structure ScanResult where
  bias_present : Bool
  dark_present : Bool
  flat_present : Bool

/-- Scan through files to find out what is available (lines 49-53). -/
def scanFiles (files : List String) : ScanResult :=
  { bias_present := files.any (fun f => containsSub "bias" f)
    dark_present := files.any (fun f => containsSub "dark" f)
    flat_present := files.any (fun f => containsSub "flat" f) }

/-- The kinds of top-level report content emitted into the PDF, in order. -/
inductive ReportSection
  | summaryPage
  | biasSection
  | darkSection
  | flatSection
  | finalSummary
deriving DecidableEq

/-- Which sections the report contains, in emission order: the first summary
page is unconditional; the bias / dark / flat sections are guarded by the
presence flags (lines 95, 129, 250); the final cross-reference table requires
all three condition types (line 372). -/
def buildReport (s : ScanResult) : List ReportSection :=
  [ReportSection.summaryPage]
    ++ (if s.bias_present then [ReportSection.biasSection] else [])
    ++ (if s.dark_present then [ReportSection.darkSection] else [])
    ++ (if s.flat_present then [ReportSection.flatSection] else [])
    ++ (if s.bias_present && s.dark_present && s.flat_present then
          [ReportSection.finalSummary] else [])

/-- Top-level skeleton of `standard_analysis_products` (lines 34-56): when the
directory listing is empty the function prints a message and returns `False`
before the report file is created (modelled as `none`); otherwise the report is
assembled from whichever sections are present. -/
def standardAnalysisProducts (files : List String) : Option (List ReportSection) :=
  if files.length < 1 then none
  else some (buildReport (scanFiles files))

/-! ## Measurement dictionaries (lines 86-89) -/

/-- The four measurement dictionaries accumulated by the analysis
(`read_noise`, `det_gain`, `dark_current`, `well_depth`). -/
structure Meas where
  read_noise : String → Option ℝ
  det_gain : String → Option ℝ
  dark_current : String → Option ℝ
  well_depth : String → Option ℝ

/-- The initial state: all four dictionaries empty (lines 86-89). -/
def measEmpty : Meas :=
  ⟨fun _ => none, fun _ => none, fun _ => none, fun _ => none⟩

/-! ## Bias analyzer (lines 98-124) -/

/-- Processing of one bias exposure group (lines 100-115): in `hdr` mode the
channel labels are the two dual-gain labels and the per-channel variances are
the pair returned by `get_variance`; otherwise the single label is the gain
mode name with its single variance.  For each channel
`read_noise[label] = np.sqrt(var)` is stored (line 115). -/
noncomputable def biasProcess (gain : String) (var_pair : ℝ × ℝ) (var_single : ℝ)
    (rn : String → Option ℝ) : String → Option ℝ :=
  let gv : List (String × ℝ) :=
    if gain = "hdr" then
      [("high (dual-gain)", var_pair.1), ("low (dual-gain)", var_pair.2)]
    else [(gain, var_single)]
  gv.foldl (fun d p => setKey d p.1 (Real.sqrt p.2)) rn

/-! ## Dark analyzer (lines 129-194) -/

/-- The four per-mode dark frame stacks assembled at lines 139-177 (each frame
flattened to a pixel list). -/
structure DarkStacks (α : Type) where
  short_low : List (List α)
  short_high : List (List α)
  long_low : List (List α)
  long_high : List (List α)

/-- The conditional `dark_current` writes at lines 190-191: only in `FUVdark`
mode, and only for the two long-duration median frames, is
`dark_current[channel] = np.median(med_dark) / time` recorded. -/
def darkWrite {α : Type} [LinearOrderedField α] (mode name : String)
    (medDark : List α) (t : α) (dc : String → Option α) : String → Option α :=
  if mode = "FUVdark" ∧ name = "long low-gain" then
    setKey dc "low (dual-gain)" (npMedian medDark / t)
  else if mode = "FUVdark" ∧ name = "long high-gain" then
    setKey dc "high (dual-gain)" (npMedian medDark / t)
  else dc

/-- The per-mode median frames with their names and exposure times
(lines 131-136 and 180-182). -/
def darkModeFrames {α : Type} [LinearOrderedField α] (mode : String)
    (st : DarkStacks α) : List (String × List α × α) :=
  let long : α := if mode = "FUVdark" then 900 else 300
  let short : α := if mode = "FUVdark" then 9 else 3
  [("short low-gain", medianStack st.short_low, short),
   ("short high-gain", medianStack st.short_high, short),
   ("long low-gain", medianStack st.long_low, long),
   ("long high-gain", medianStack st.long_high, long)]

/-- Effect of one dark mode on the `dark_current` dictionary: the loop over the
four median frames at lines 184-191. -/
def darkModeDC {α : Type} [LinearOrderedField α] (mode : String)
    (st : DarkStacks α) (dc : String → Option α) : String → Option α :=
  (darkModeFrames mode st).foldl (fun d e => darkWrite mode e.1 e.2.1 e.2.2 d) dc

/-- Effect of the whole dark section on `dark_current`: the loop over the three
operating modes at line 130. -/
def darkAllModes {α : Type} [LinearOrderedField α] (byMode : String → DarkStacks α)
    (dc : String → Option α) : String → Option α :=
  (["FUVdark", "NUVdark", "NUVguidingdark"]).foldl
    (fun d mode => darkModeDC mode (byMode mode) d) dc

/-! ## Flat analyzer (lines 250-317) -/

/-- One loaded flat exposure: exposure time, the CDS image(s) and the
region-of-interest median and variance per channel.  For `hdr` frames channel
0 is the high-gain channel and channel 1 the low-gain channel
(`cds_frames[0,0]` / `cds_frames[0,1]`); non-hdr frames use only the channel-0
fields (`cds_frames[0]`, scalar `get_median` / `get_variance`). -/
structure FlatFrame (α : Type) where
  exp_time : α
  img0 : List α
  img1 : List α
  med0 : α
  med1 : α
  var0 : α
  var1 : α

instance {α : Type} [LinearOrderedField α] : Inhabited (FlatFrame α) :=
  ⟨⟨0, [], [], 0, 0, 0, 0⟩⟩

/-- The mid-range predicate of lines 270-271 and 287:
`(median > 5000) & (median < 15000)`, both inequalities strict. -/
def midPred {α : Type} [LinearOrderedField α] (m : α) : Bool :=
  decide (5000 < m) && decide (m < 15000)

/-- The parallel per-channel lists accumulated by the flat loading loop
(line 251-252). -/
structure FlatAcc (α : Type) where
  gain_label : List String
  sat_flats : List (List α)
  mid_flats : List (List α)
  mid_flat_times : List α
  exp_times : List (List α)
  med_sig : List (List α)
  var : List (List α)

/-- The initial (empty) accumulator of lines 251-252. -/
def emptyFlatAcc {α : Type} : FlatAcc α := ⟨[], [], [], [], [], [], []⟩

/-- One iteration of the flat loading loop (lines 253-289) for gain mode `g`:
`max(exp)` / `np.argmax(exp)` fail on an empty frame list; in `hdr` mode two
channels are appended, otherwise one; the mid-range exposure index is
`np.where((medians > 5000) & (medians < 15000))[0][0]`, i.e. the first index
satisfying `midPred`, and its absence is an index-out-of-bounds failure. -/
def processGain {α : Type} [LinearOrderedField α] [DecidableEq α] (acc : FlatAcc α)
    (g : String) (frames : List (FlatFrame α)) : Except String (FlatAcc α) :=
  let exp := frames.map (fun ff => ff.exp_time)
  match exp.max? with
  | none => Except.error "zero-size array to reduction operation maximum"
  | some max_exp =>
    let max_i := exp.indexOf max_exp
    if g = "hdr" then
      let medians0 := frames.map (fun ff => ff.med0)
      let medians1 := frames.map (fun ff => ff.med1)
      let variance0 := frames.map (fun ff => ff.var0)
      let variance1 := frames.map (fun ff => ff.var1)
      match medians0.findIdx? midPred, medians1.findIdx? midPred with
      | some hmid, some lmid =>
        Except.ok
          { gain_label := acc.gain_label ++ ["high (dual-gain)", "low (dual-gain)"]
            sat_flats := acc.sat_flats ++
              [(frames.getD max_i default).img0, (frames.getD max_i default).img1]
            mid_flats := acc.mid_flats ++
              [(frames.getD hmid default).img0, (frames.getD lmid default).img1]
            mid_flat_times := acc.mid_flat_times ++ [exp.getD hmid 0, exp.getD lmid 0]
            exp_times := acc.exp_times ++ [exp, exp]
            med_sig := acc.med_sig ++ [medians0, medians1]
            var := acc.var ++ [variance0, variance1] }
      | _, _ => Except.error "index 0 is out of bounds for axis 0 with size 0"
    else
      let medians := frames.map (fun ff => ff.med0)
      let variance := frames.map (fun ff => ff.var0)
      match medians.findIdx? midPred with
      | some mid_i =>
        Except.ok
          { gain_label := acc.gain_label ++ [g]
            sat_flats := acc.sat_flats ++ [(frames.getD max_i default).img0]
            mid_flats := acc.mid_flats ++ [(frames.getD mid_i default).img0]
            mid_flat_times := acc.mid_flat_times ++ [exp.getD mid_i 0]
            exp_times := acc.exp_times ++ [exp]
            med_sig := acc.med_sig ++ [medians]
            var := acc.var ++ [variance] }
      | none => Except.error "index 0 is out of bounds for axis 0 with size 0"

/-- Modelled from the spec: `load_by_file_prefix` (defined in
`cmost_exposure.py`, which is not part of the analysed sources) returns the
list of exposures whose filenames match the given prefix, so a gain mode with
no matching files yields the empty list.  `flatLoad` is the loop
`for gain in ['hdr','high','low']` of lines 253-289 over the frames so
returned, aborting on the first failure (an uncaught Python exception). -/
def flatLoad {α : Type} [LinearOrderedField α] [DecidableEq α]
    (flats : String → List (FlatFrame α)) : Except String (FlatAcc α) :=
  (["hdr", "high", "low"]).foldlM (fun acc g => processGain acc g (flats g)) emptyFlatAcc

/-- The well-depth recording loop at lines 304-308:
`well_depth[gain_label[i]] = np.median(sat_flats[i])` for each channel. -/
noncomputable def wellDepthWrites (labels : List String) (sats : List (List ℝ))
    (m : Meas) : Meas :=
  (labels.zip sats).foldl
    (fun mm p => { mm with well_depth := setKey mm.well_depth p.1 (npMedian p.2) }) m

/-! ## PTC fit and gain conversion (lines 336-354) -/

/-- astropy's `PowerLaw1D` model `f(x) = amplitude * (x / x_0) ** (-alpha)`
with the fixed parameters used at line 344 (`x_0 = 1`, `alpha = -1`), so that
`f(x) = amplitude * x`. -/
def ptcModel (amplitude x : ℝ) : ℝ := amplitude * x

/-- Result of the external nonlinear least-squares fit (astropy
`LevMarLSQFitter`, line 336, an external collaborator): the fitted amplitude of
the returned model, together with the convergence information the fitter
reports after at most `maxiter` iterations.  When the iteration cap is reached
without convergence the fitter emits a warning and still returns the
best-so-far parameters; it does not raise. -/
structure FitResult where
  amplitude : ℝ
  converged : Bool

/-- The unsaturated sample selection of lines 341-342: the boolean mask
`med_sig < 15000` applied to the zipped (signal, variance) samples. -/
def unsatFilter {α : Type} [LinearOrderedField α] (med v : List α) : List (α × α) :=
  (med.zip v).filter (fun q => decide (q.1 < 15000))

/-- The in-place gain conversion of one entry (lines 349-354): when `label` is
present in the dictionary its value `v` is replaced by `f v`; absent labels
leave the dictionary untouched. -/
def convertEntry {β : Type} (f : β → β) (d : String → Option β) (label : String) :
    String → Option β :=
  match d label with
  | some v => setKey d label (f v)
  | none => d

/-- Lines 347-354, once the conversion gain `k` is known for a channel:
`det_gain[label] = k` is stored, and the already-recorded measurements are
converted in place — `read_noise[label] = np.sqrt(read_noise[label]) * k`,
`dark_current[label] = dark_current[label] * k`,
`well_depth[label] = well_depth[label] * k` — each only when `label` is already
present in the respective dictionary. -/
noncomputable def gainConvert (label : String) (k : ℝ) (m : Meas) : Meas :=
  { det_gain := setKey m.det_gain label k
    read_noise := convertEntry (fun v => Real.sqrt v * k) m.read_noise label
    dark_current := convertEntry (fun v => v * k) m.dark_current label
    well_depth := convertEntry (fun v => v * k) m.well_depth label }

/-- One iteration of the PTC loop (lines 339-354) for the channel `label` with
median-signal and variance series `med`, `v`: restrict to the unsaturated
samples, take `noise_floor = min(v)` (a failure on an empty selection, as for
numpy), run the external fit on `(sig, v - noise_floor)`, derive
`k = 5000 / model_fit(5000)` and apply the in-place conversion.  The fit's
convergence information is not consulted anywhere. -/
noncomputable def ptcChannel (fitRun : List ℝ → List ℝ → FitResult) (label : String)
    (med v : List ℝ) (m : Meas) : Except String Meas :=
  let unsat := unsatFilter med v
  let sig := unsat.map Prod.fst
  let vv := unsat.map Prod.snd
  match vv.min? with
  | none => Except.error "zero-size array to reduction operation minimum"
  | some noise_floor =>
    let model_fit := fitRun sig (vv.map (fun x => x - noise_floor))
    let k := 5000 / ptcModel model_fit.amplitude 5000
    Except.ok (gainConvert label k m)

/-- The PTC loop `for j in range(4)` of line 339 over the four channels
accumulated by `flatLoad`. -/
noncomputable def ptcLoop (fitRun : List ℝ → List ℝ → FitResult) (acc : FlatAcc ℝ)
    (m : Meas) : Except String Meas :=
  (List.range 4).foldlM
    (fun mm j =>
      ptcChannel fitRun (acc.gain_label.getD j "") (acc.med_sig.getD j [])
        (acc.var.getD j []) mm) m

/-! ## Helper lemmas about `npMedian` and `medianStack` -/

theorem mergeSortLe_sorted {α : Type} [LinearOrderedField α] (l : List α) :
    List.Sorted (· ≤ ·) (l.mergeSort (fun a b => decide (a ≤ b))) := by
  have h := @List.sorted_mergeSort α (fun a b => decide (a ≤ b))
    (fun a b c hab hbc => by
      simp only [decide_eq_true_eq] at hab hbc ⊢
      exact le_trans hab hbc)
    (fun a b => by
      simp only [Bool.or_eq_true, decide_eq_true_eq]
      exact le_total a b) l
  exact h.imp (fun hab => by simpa using hab)

theorem npMedian_perm {α : Type} [LinearOrderedField α] {l₁ l₂ : List α}
    (h : l₁.Perm l₂) : npMedian l₁ = npMedian l₂ := by
  have hs : l₁.mergeSort (fun a b => decide (a ≤ b)) =
      l₂.mergeSort (fun a b => decide (a ≤ b)) :=
    List.eq_of_perm_of_sorted
      ((List.mergeSort_perm l₁ _).trans (h.trans (List.mergeSort_perm l₂ _).symm))
      (mergeSortLe_sorted l₁) (mergeSortLe_sorted l₂)
  unfold npMedian
  rw [hs, h.length_eq]

theorem npMedian_replicate {α : Type} [LinearOrderedField α] {n : Nat} (hn : 0 < n)
    (a : α) : npMedian (List.replicate n a) = a := by
  have hsort : (List.replicate n a).mergeSort (fun a b => decide (a ≤ b)) =
      List.replicate n a :=
    List.mergeSort_of_sorted (List.pairwise_replicate.2 (Or.inr (by simp)))
  have hget : ∀ m, m < n → (List.replicate n a).getD m 0 = a := by
    intro m hm
    rw [List.getD_eq_getElem?_getD, List.getElem?_replicate_of_lt hm]
    rfl
  unfold npMedian
  simp only [hsort, List.length_replicate]
  rcases Nat.even_or_odd n with he | ho
  · have h2 : n % 2 = 0 := Nat.even_iff.1 he
    rw [if_neg (by omega)]
    rw [hget (n / 2 - 1) (by omega), hget (n / 2) (by omega)]
    exact add_self_div_two a
  · have h2 : n % 2 = 1 := Nat.odd_iff.1 ho
    rw [if_pos h2, hget (n / 2) (by omega)]

theorem pixelColumn_eq_map {α : Type} (stack : List (List α)) (n i : Nat)
    (hlen : ∀ f ∈ stack, f.length = n) (hi : i < n) (d : α) :
    pixelColumn stack i = stack.map (fun f => f.getD i d) := by
  induction stack with
  | nil => rfl
  | cons f fs ih =>
    have hf : f.length = n := hlen f (List.mem_cons_self f fs)
    have hif : i < f.length := hf ▸ hi
    have : f[i]? = some f[i] := List.getElem?_eq_getElem hif
    simp only [pixelColumn, List.filterMap_cons, this, List.map_cons]
    rw [← pixelColumn]
    rw [ih (fun g hg => hlen g (List.mem_cons_of_mem f hg))]
    congr 1
    rw [List.getD_eq_getElem?_getD, this]
    rfl

theorem pixelColumn_length {α : Type} (stack : List (List α)) (n i : Nat)
    (hlen : ∀ f ∈ stack, f.length = n) (hi : i < n) :
    (pixelColumn stack i).length = stack.length := by
  induction stack with
  | nil => rfl
  | cons f fs ih =>
    have hf : f.length = n := hlen f (List.mem_cons_self f fs)
    have hsome : f[i]? = some f[i] := List.getElem?_eq_getElem (hf ▸ hi)
    simp only [pixelColumn, List.filterMap_cons, hsome, List.length_cons]
    rw [← pixelColumn, ih (fun g hg => hlen g (List.mem_cons_of_mem f hg))]

theorem medianStack_entry {α : Type} [LinearOrderedField α] (stack : List (List α))
    (n i : Nat) (hne : stack ≠ []) (hlen : ∀ f ∈ stack, f.length = n) (hi : i < n) :
    (medianStack stack).getD i 0 = npMedian (pixelColumn stack i) := by
  have hhead : (stack.head?.getD []).length = n := by
    rcases stack with _ | ⟨f, fs⟩
    · exact absurd rfl hne
    · exact hlen f (List.mem_cons_self f fs)
  unfold medianStack
  rw [hhead, List.getD_eq_getElem?_getD, List.getElem?_map]
  rw [List.getElem?_range hi]
  rfl

theorem medianStack_length {α : Type} [LinearOrderedField α] (stack : List (List α))
    (n : Nat) (hne : stack ≠ []) (hlen : ∀ f ∈ stack, f.length = n) :
    (medianStack stack).length = n := by
  have hhead : (stack.head?.getD []).length = n := by
    rcases stack with _ | ⟨f, fs⟩
    · exact absurd rfl hne
    · exact hlen f (List.mem_cons_self f fs)
  unfold medianStack
  rw [List.length_map, hhead, List.length_range]

theorem pixelColumn_replicate {α : Type} {k npix i : Nat} (hi : i < npix) (a : α) :
    pixelColumn (List.replicate k (List.replicate npix a)) i = List.replicate k a := by
  induction k with
  | zero => rfl
  | succ m ih =>
    simp only [List.replicate_succ, pixelColumn, List.filterMap_cons,
      List.getElem?_replicate_of_lt hi]
    rw [← pixelColumn, ih]

theorem medianStack_replicate {α : Type} [LinearOrderedField α] {k npix : Nat}
    (hk : 0 < k) (a : α) :
    medianStack (List.replicate k (List.replicate npix a)) = List.replicate npix a := by
  have hhead : ((List.replicate k (List.replicate npix a)).head?.getD []) =
      List.replicate npix a := by
    cases k with
    | zero => omega
    | succ m => simp [List.replicate_succ]
  unfold medianStack
  rw [hhead, List.length_replicate]
  have : ∀ i ∈ List.range npix,
      npMedian (pixelColumn (List.replicate k (List.replicate npix a)) i) = a := by
    intro i hi
    rw [pixelColumn_replicate (List.mem_range.1 hi) a]
    exact npMedian_replicate hk a
  rw [List.map_congr_left this]
  have h := List.map_const (List.range npix) a
  rw [show (fun _ : ℕ => a) = Function.const ℕ a from rfl, h, List.length_range]

/-! ## Claim theorems -/

/-- C8: for every non-empty stack of input frames of equal shape, the computed
median frame (`np.median(stack, axis=0)`) equals the elementwise median of the
stack, is invariant under any permutation of the input frame order, and for an
even number of frames each pixel is the average of the two middle values of
the sorted pixel column. -/
theorem C8_median_frame (stack stack' : List (List ℚ)) (n : Nat)
    (hne : stack ≠ []) (hlen : ∀ f ∈ stack, f.length = n) :
    ((medianStack stack).length = n ∧
      ∀ i, i < n → (medianStack stack).getD i 0 =
        npMedian (stack.map (fun f => f.getD i 0))) ∧
    (stack.Perm stack' → medianStack stack = medianStack stack') ∧
    (stack.length % 2 = 0 → ∀ i, i < n →
      (medianStack stack).getD i 0 =
        (((pixelColumn stack i).mergeSort (fun a b => decide (a ≤ b))).getD
            (stack.length / 2 - 1) 0 +
         ((pixelColumn stack i).mergeSort (fun a b => decide (a ≤ b))).getD
            (stack.length / 2) 0) / 2) := by
  refine ⟨⟨medianStack_length stack n hne hlen, fun i hi => ?_⟩, fun h => ?_, fun hev i hi => ?_⟩
  · rw [medianStack_entry stack n i hne hlen hi,
      pixelColumn_eq_map stack n i hlen hi 0]
  · have hne' : stack' ≠ [] := by
      intro hx
      rw [hx] at h
      exact hne h.eq_nil
    have hlen' : ∀ f ∈ stack', f.length = n := fun f hf => hlen f (h.mem_iff.2 hf)
    have h1 : (stack.head?.getD []).length = n := by
      rcases stack with _ | ⟨f, fs⟩
      · exact absurd rfl hne
      · exact hlen f (List.mem_cons_self f fs)
    have h2 : (stack'.head?.getD []).length = n := by
      rcases stack' with _ | ⟨f, fs⟩
      · exact absurd rfl hne'
      · exact hlen' f (List.mem_cons_self f fs)
    unfold medianStack
    rw [h1, h2]
    apply List.map_congr_left
    intro i _
    exact npMedian_perm (List.Perm.filterMap _ h)
  · rw [medianStack_entry stack n i hne hlen hi]
    unfold npMedian
    rw [pixelColumn_length stack n i hlen hi]
    rw [if_neg (by omega)]

/-- Witness for C8 at a concrete 2 × 2 stack and a permutation of it. -/
theorem C8_median_frame_witness :
    (medianStack [[(1 : ℚ), 5], [3, 2]]).getD 0 0 =
      npMedian (List.map (fun f => f.getD 0 0) [[(1 : ℚ), 5], [3, 2]]) ∧
    medianStack [[(1 : ℚ), 5], [3, 2]] = medianStack [[(3 : ℚ), 2], [1, 5]] ∧
    npMedian (List.map (fun f => f.getD 0 0) [[(1 : ℚ), 5], [3, 2]]) = 2 := by
  have h := C8_median_frame [[(1 : ℚ), 5], [3, 2]] [[(3 : ℚ), 2], [1, 5]] 2
    (by decide) (by decide)
  have hmap : List.map (fun f => f.getD 0 0) [[(1 : ℚ), 5], [3, 2]] = [1, 3] := by decide
  have hsort : ([(1 : ℚ), 3]).mergeSort (fun a b => decide (a ≤ b)) = [1, 3] :=
    List.mergeSort_of_sorted (by decide)
  have heval : npMedian [(1 : ℚ), 3] = 2 := by
    unfold npMedian
    rw [hsort]
    norm_num [List.getD_cons_succ, List.getD_cons_zero]
  exact ⟨h.1.2 0 (by decide), h.2.1 (by decide), by rw [hmap, heval]⟩

/-- Computation of the two conditional `dark_current` writes of the `FUVdark`
mode (lines 184-191). -/
theorem darkModeDC_FUVdark {α : Type} [LinearOrderedField α] (st : DarkStacks α)
    (dc : String → Option α) :
    darkModeDC "FUVdark" st dc =
      setKey (setKey dc "low (dual-gain)" (npMedian (medianStack st.long_low) / 900))
        "high (dual-gain)" (npMedian (medianStack st.long_high) / 900) := by
  have e1 : ∀ (md : List α) (t : α) (d : String → Option α),
      darkWrite "FUVdark" "short low-gain" md t d = d := by
    intro md t d
    unfold darkWrite
    rw [if_neg (fun h => absurd h.2 (by decide)), if_neg (fun h => absurd h.2 (by decide))]
  have e2 : ∀ (md : List α) (t : α) (d : String → Option α),
      darkWrite "FUVdark" "short high-gain" md t d = d := by
    intro md t d
    unfold darkWrite
    rw [if_neg (fun h => absurd h.2 (by decide)), if_neg (fun h => absurd h.2 (by decide))]
  have e3 : ∀ (md : List α) (t : α) (d : String → Option α),
      darkWrite "FUVdark" "long low-gain" md t d = setKey d "low (dual-gain)" (npMedian md / t) := by
    intro md t d
    unfold darkWrite
    rw [if_pos ⟨rfl, rfl⟩]
  have e4 : ∀ (md : List α) (t : α) (d : String → Option α),
      darkWrite "FUVdark" "long high-gain" md t d = setKey d "high (dual-gain)" (npMedian md / t) := by
    intro md t d
    unfold darkWrite
    rw [if_neg (fun h => absurd h.2 (by decide)), if_pos ⟨rfl, rfl⟩]
  simp only [darkModeDC, darkModeFrames, List.foldl, eq_self_iff_true, if_true]
  rw [e1, e2, e3, e4]

/-- The dark modes other than `FUVdark` never touch `dark_current`. -/
theorem darkModeDC_other {α : Type} [LinearOrderedField α] (mode : String)
    (hmode : mode ≠ "FUVdark") (st : DarkStacks α) (dc : String → Option α) :
    darkModeDC mode st dc = dc := by
  have e : ∀ (name : String) (md : List α) (t : α) (d : String → Option α),
      darkWrite mode name md t d = d := by
    intro name md t d
    unfold darkWrite
    rw [if_neg (fun h => hmode h.1), if_neg (fun h => hmode h.1)]
  simp only [darkModeDC, darkModeFrames, List.foldl]
  rw [e, e, e, e]

/-- C3: dark current is written to the measurement set only by the FUVdark
mode's long-duration frames, one entry per dual-gain channel, as
`median(long median frame) / 900`; on 9 identical constant-`V` long exposures
both dual-gain entries equal `V / 900`, and the other dark modes write
nothing. -/
theorem C3_dark_current_FUVdark (V : ℚ) (npix : Nat) (hnpix : 0 < npix)
    (st : DarkStacks ℚ) (dc : String → Option ℚ)
    (hll : st.long_low = List.replicate 9 (List.replicate npix V))
    (hlh : st.long_high = List.replicate 9 (List.replicate npix V)) :
    darkModeDC "FUVdark" st dc "low (dual-gain)" = some (V / 900) ∧
    darkModeDC "FUVdark" st dc "high (dual-gain)" = some (V / 900) ∧
    (∀ l, l ≠ "low (dual-gain)" → l ≠ "high (dual-gain)" →
      darkModeDC "FUVdark" st dc l = dc l) ∧
    (∀ (mode : String), mode ≠ "FUVdark" →
      ∀ (st₂ : DarkStacks ℚ) (dc₂ : String → Option ℚ), darkModeDC mode st₂ dc₂ = dc₂) := by
  have hlo : npMedian (medianStack st.long_low) = V := by
    rw [hll, medianStack_replicate (by norm_num) V]
    exact npMedian_replicate hnpix V
  have hhi : npMedian (medianStack st.long_high) = V := by
    rw [hlh, medianStack_replicate (by norm_num) V]
    exact npMedian_replicate hnpix V
  rw [darkModeDC_FUVdark st dc, hlo, hhi]
  refine ⟨?_, ?_, fun l hl hh => ?_, fun mode hmode st₂ dc₂ => darkModeDC_other mode hmode st₂ dc₂⟩
  · unfold setKey
    rw [if_neg (by decide), if_pos rfl]
  · unfold setKey
    rw [if_pos rfl]
  · unfold setKey
    rw [if_neg hh, if_neg hl]

/-- Witness for C3 at `V = 3`, a 2-pixel frame and empty dictionaries. -/
theorem C3_dark_current_FUVdark_witness :
    darkModeDC "FUVdark"
      ⟨[], [], List.replicate 9 (List.replicate 2 (3 : ℚ)),
        List.replicate 9 (List.replicate 2 (3 : ℚ))⟩ (fun _ => none) "low (dual-gain)"
      = some (3 / 900) :=
  (C3_dark_current_FUVdark 3 2 (by decide) _ _ rfl rfl).1

/-! ## Dictionary update helpers -/

theorem setKey_same {β : Type} (d : String → Option β) (key : String) (v : β) :
    setKey d key v key = some v := by
  unfold setKey
  rw [if_pos rfl]

theorem setKey_other {β : Type} (d : String → Option β) (key : String) (v : β)
    (l : String) (hl : l ≠ key) : setKey d key v l = d l := by
  unfold setKey
  rw [if_neg hl]

theorem convertEntry_present {β : Type} (f : β → β) (d : String → Option β)
    (label : String) (v : β) (h : d label = some v) :
    convertEntry f d label label = some (f v) := by
  unfold convertEntry
  rw [h]
  exact setKey_same d label (f v)

theorem convertEntry_absent {β : Type} (f : β → β) (d : String → Option β)
    (label : String) (h : d label = none) : convertEntry f d label = d := by
  unfold convertEntry
  rw [h]

theorem convertEntry_other {β : Type} (f : β → β) (d : String → Option β)
    (label l : String) (hl : l ≠ label) : convertEntry f d label l = d l := by
  unfold convertEntry
  cases h : d label with
  | none => rfl
  | some v => exact setKey_other d label (f v) l hl

/-- C1: after the PTC fit determines the conversion gain `k` for a channel,
the in-place conversion replaces present entries exactly as stated —
`read_noise[label] := sqrt(read_noise[label]) * k`,
`dark_current[label] := dark_current[label] * k`,
`well_depth[label] := well_depth[label] * k` — while a dictionary not holding
the label, and every other label, is left untouched. -/
theorem C1_gain_conversion_in_place (label : String) (k : ℝ) (m : Meas) :
    (∀ v, m.read_noise label = some v →
      (gainConvert label k m).read_noise label = some (Real.sqrt v * k)) ∧
    (∀ v, m.dark_current label = some v →
      (gainConvert label k m).dark_current label = some (v * k)) ∧
    (∀ v, m.well_depth label = some v →
      (gainConvert label k m).well_depth label = some (v * k)) ∧
    (m.read_noise label = none → (gainConvert label k m).read_noise = m.read_noise) ∧
    (m.dark_current label = none → (gainConvert label k m).dark_current = m.dark_current) ∧
    (m.well_depth label = none → (gainConvert label k m).well_depth = m.well_depth) ∧
    (∀ l, l ≠ label →
      (gainConvert label k m).read_noise l = m.read_noise l ∧
      (gainConvert label k m).dark_current l = m.dark_current l ∧
      (gainConvert label k m).well_depth l = m.well_depth l) := by
  refine ⟨fun v h => ?_, fun v h => ?_, fun v h => ?_, fun h => ?_, fun h => ?_,
    fun h => ?_, fun l hl => ⟨?_, ?_, ?_⟩⟩
  · exact convertEntry_present _ m.read_noise label v h
  · exact convertEntry_present _ m.dark_current label v h
  · exact convertEntry_present _ m.well_depth label v h
  · exact convertEntry_absent _ m.read_noise label h
  · exact convertEntry_absent _ m.dark_current label h
  · exact convertEntry_absent _ m.well_depth label h
  · exact convertEntry_other _ m.read_noise label l hl
  · exact convertEntry_other _ m.dark_current label l hl
  · exact convertEntry_other _ m.well_depth label l hl

/-- Witness for C1 with `read_noise["high"] = 9`, `dark_current["high"] = 5`,
`well_depth["high"] = 7` and `k = 2`; the label `"low"` stays untouched. -/
theorem C1_gain_conversion_in_place_witness :
    (gainConvert "high" 2
        ⟨setKey (fun _ => none) "high" 9, fun _ => none,
         setKey (fun _ => none) "high" 5, setKey (fun _ => none) "high" 7⟩).read_noise "high"
      = some (Real.sqrt 9 * 2) ∧
    (gainConvert "high" 2
        ⟨setKey (fun _ => none) "high" 9, fun _ => none,
         setKey (fun _ => none) "high" 5, setKey (fun _ => none) "high" 7⟩).dark_current "high"
      = some (5 * 2) ∧
    (gainConvert "high" 2
        ⟨setKey (fun _ => none) "high" 9, fun _ => none,
         setKey (fun _ => none) "high" 5, setKey (fun _ => none) "high" 7⟩).well_depth "high"
      = some (7 * 2) := by
  have h := C1_gain_conversion_in_place "high" 2
    ⟨setKey (fun _ => none) "high" 9, fun _ => none,
     setKey (fun _ => none) "high" 5, setKey (fun _ => none) "high" 7⟩
  exact ⟨h.1 9 (by simp [setKey]), h.2.1 5 (by simp [setKey]),
    h.2.2.1 7 (by simp [setKey])⟩

/-- C2 counterexample: with `dark_current["high"] = 1` and `k = 2`, running the
conversion step a second time over the same dictionaries yields 4 while a
single application yields 2 — re-invocation double-converts, refuting the
claim that a second application leaves the values unchanged. -/
theorem C2_counterexample :
    (gainConvert "high" 2 (gainConvert "high" 2
        ⟨fun _ => none, fun _ => none, setKey (fun _ => none) "high" 1, fun _ => none⟩)).dark_current "high" ≠
    (gainConvert "high" 2
        ⟨fun _ => none, fun _ => none, setKey (fun _ => none) "high" 1, fun _ => none⟩).dark_current "high" := by
  have h1 : setKey (fun _ => none : String → Option ℝ) "high" 1 "high" = some 1 :=
    setKey_same _ _ _
  have ha : (gainConvert "high" 2
      ⟨fun _ => none, fun _ => none, setKey (fun _ => none) "high" 1, fun _ => none⟩).dark_current "high"
      = some ((1 : ℝ) * 2) := by
    simp [gainConvert, convertEntry, setKey]
  have hb : (gainConvert "high" 2 (gainConvert "high" 2
      ⟨fun _ => none, fun _ => none, setKey (fun _ => none) "high" 1, fun _ => none⟩)).dark_current "high"
      = some ((1 : ℝ) * 2 * 2) := by
    simp [gainConvert, convertEntry, setKey]
  rw [ha, hb]
  intro h
  have := Option.some.inj h
  norm_num at this

/-- C2 amended: re-running the conversion step over the same dictionaries does
NOT leave the values unchanged — it multiplies `dark_current` and `well_depth`
by `k` again and re-applies `sqrt(·) * k` to `read_noise`, so for positive
`k ≠ 1` and a nonzero dark current the twice-converted value differs from the
once-converted one.  The single run avoids this only because each channel
label occurs exactly once in `gain_label`. -/
theorem C2_no_double_conversion_amended (label : String) (k : ℝ) (m : Meas)
    (rnv dcv wdv : ℝ)
    (hrn : m.read_noise label = some rnv)
    (hdc : m.dark_current label = some dcv)
    (hwd : m.well_depth label = some wdv)
    (hk0 : 0 < k) (hk1 : k ≠ 1) (hv : dcv ≠ 0) :
    (gainConvert label k (gainConvert label k m)).read_noise label =
      some (Real.sqrt (Real.sqrt rnv * k) * k) ∧
    (gainConvert label k (gainConvert label k m)).dark_current label =
      some (dcv * k * k) ∧
    (gainConvert label k (gainConvert label k m)).well_depth label =
      some (wdv * k * k) ∧
    (gainConvert label k (gainConvert label k m)).dark_current label ≠
      (gainConvert label k m).dark_current label := by
  have ha : (gainConvert label k m).read_noise label = some (Real.sqrt rnv * k) :=
    convertEntry_present _ m.read_noise label rnv hrn
  have hb : (gainConvert label k m).dark_current label = some (dcv * k) :=
    convertEntry_present _ m.dark_current label dcv hdc
  have hc : (gainConvert label k m).well_depth label = some (wdv * k) :=
    convertEntry_present _ m.well_depth label wdv hwd
  have hbb : (gainConvert label k (gainConvert label k m)).dark_current label =
      some (dcv * k * k) := convertEntry_present _ _ label _ hb
  refine ⟨convertEntry_present _ _ label _ ha, hbb,
    convertEntry_present _ _ label _ hc, ?_⟩
  rw [hbb, hb]
  intro h
  have h2 := Option.some.inj h
  have hk : k ≠ 0 := ne_of_gt hk0
  have : dcv * k * k - dcv * k = 0 := by rw [h2]; ring
  have hfac : dcv * k * (k - 1) = 0 := by ring_nf; ring_nf at this; linarith
  rcases mul_eq_zero.1 hfac with h3 | h3
  · rcases mul_eq_zero.1 h3 with h4 | h4
    · exact hv h4
    · exact hk h4
  · exact hk1 (by linarith)

/-- Witness for C2's amended statement at `read_noise = 16`,
`dark_current = 3`, `well_depth = 7`, `k = 2`. -/
theorem C2_no_double_conversion_amended_witness :
    (gainConvert "high" 2 (gainConvert "high" 2
        ⟨setKey (fun _ => none) "high" 16, fun _ => none,
         setKey (fun _ => none) "high" 3, setKey (fun _ => none) "high" 7⟩)).dark_current "high"
      = some ((3 : ℝ) * 2 * 2) := by
  have h := C2_no_double_conversion_amended "high" 2
    ⟨setKey (fun _ => none) "high" 16, fun _ => none,
     setKey (fun _ => none) "high" 3, setKey (fun _ => none) "high" 7⟩
    16 3 7 (by simp [setKey]) (by simp [setKey]) (by simp [setKey])
    (by norm_num) (by norm_num) (by norm_num)
  exact h.2.1

/-! ## Bias, flat-label and report-skeleton helpers -/

theorem biasProcess_hdr (vp : ℝ × ℝ) (vs : ℝ) (rn : String → Option ℝ) :
    biasProcess "hdr" vp vs rn =
      setKey (setKey rn "high (dual-gain)" (Real.sqrt vp.1)) "low (dual-gain)"
        (Real.sqrt vp.2) := by
  simp only [biasProcess, if_true]
  rfl

theorem biasProcess_nonhdr (g : String) (hg : g ≠ "hdr") (vp : ℝ × ℝ) (vs : ℝ)
    (rn : String → Option ℝ) :
    biasProcess g vp vs rn = setKey rn g (Real.sqrt vs) := by
  simp only [biasProcess]
  rw [if_neg hg]
  rfl

theorem processGain_ok_label {α : Type} [LinearOrderedField α] [DecidableEq α]
    (acc : FlatAcc α) (g : String) (frames : List (FlatFrame α)) (acc₂ : FlatAcc α)
    (h : processGain acc g frames = Except.ok acc₂) :
    acc₂.gain_label = acc.gain_label ++
      (if g = "hdr" then ["high (dual-gain)", "low (dual-gain)"] else [g]) := by
  simp only [processGain] at h
  split at h
  · exact absurd h (by simp)
  · split at h
    next hg =>
      split at h
      · cases h
        rw [if_pos hg]
      · exact absurd h (by simp)
    next hg =>
      split at h
      · cases h
        rw [if_neg hg]
      · exact absurd h (by simp)

theorem wellDepthWrites_not_mem (labels : List String) (sats : List (List ℝ))
    (m : Meas) (l : String) (hl : l ∉ labels) :
    (wellDepthWrites labels sats m).well_depth l = m.well_depth l := by
  induction labels generalizing sats m with
  | nil => rfl
  | cons a as ih =>
    cases sats with
    | nil => rfl
    | cons s ss =>
      have hla : l ≠ a := fun h => hl (h ▸ List.mem_cons_self a as)
      have hlas : l ∉ as := fun h => hl (List.mem_cons_of_mem a h)
      have step : wellDepthWrites (a :: as) (s :: ss) m =
          wellDepthWrites as ss
            { m with well_depth := setKey m.well_depth a (npMedian s) } := rfl
      rw [step, ih ss _ hlas]
      exact setKey_other m.well_depth a (npMedian s) l hla

/-- C5: for each quantity recorded, an hdr exposure group creates exactly the
two dual-gain keys in the corresponding measurement dictionary and a non-hdr
group creates exactly the one key named after the gain mode (shown for the
bias read-noise writes, the flat channel-label construction and the well-depth
writes), and no dictionary operation of the pipeline ever removes a key. -/
theorem C5_measurement_keys :
    (∀ (vp : ℝ × ℝ) (vs : ℝ) (rn : String → Option ℝ),
      biasProcess "hdr" vp vs rn "high (dual-gain)" = some (Real.sqrt vp.1) ∧
      biasProcess "hdr" vp vs rn "low (dual-gain)" = some (Real.sqrt vp.2) ∧
      ∀ l, l ≠ "high (dual-gain)" → l ≠ "low (dual-gain)" →
        biasProcess "hdr" vp vs rn l = rn l) ∧
    (∀ (g : String), g ≠ "hdr" → ∀ (vp : ℝ × ℝ) (vs : ℝ) (rn : String → Option ℝ),
      biasProcess g vp vs rn g = some (Real.sqrt vs) ∧
      ∀ l, l ≠ g → biasProcess g vp vs rn l = rn l) ∧
    (∀ (acc : FlatAcc ℝ) (g : String) (frames : List (FlatFrame ℝ)) (acc₂ : FlatAcc ℝ),
      processGain acc g frames = Except.ok acc₂ →
      acc₂.gain_label = acc.gain_label ++
        (if g = "hdr" then ["high (dual-gain)", "low (dual-gain)"] else [g])) ∧
    (∀ (labels : List String) (sats : List (List ℝ)) (m : Meas) (l : String),
      l ∉ labels → (wellDepthWrites labels sats m).well_depth l = m.well_depth l) ∧
    (∀ (β : Type) (d : String → Option β) (key : String) (v : β) (l : String),
      d l ≠ none → setKey d key v l ≠ none) ∧
    (∀ (β : Type) (f : β → β) (d : String → Option β) (label l : String),
      d l ≠ none → convertEntry f d label l ≠ none) := by
  refine ⟨fun vp vs rn => ?_, fun g hg vp vs rn => ?_,
    processGain_ok_label, wellDepthWrites_not_mem, fun β d key v l h => ?_,
    fun β f d label l h => ?_⟩
  · rw [biasProcess_hdr]
    refine ⟨?_, setKey_same _ _ _, fun l h1 h2 => ?_⟩
    · rw [setKey_other _ _ _ _ (by decide), setKey_same]
    · rw [setKey_other _ _ _ _ h2, setKey_other _ _ _ _ h1]
  · rw [biasProcess_nonhdr g hg]
    exact ⟨setKey_same _ _ _, fun l hl => setKey_other _ _ _ _ hl⟩
  · by_cases hk : l = key
    · subst hk
      rw [setKey_same]
      simp
    · rw [setKey_other d key v l hk]
      exact h
  · by_cases hk : l = label
    · subst hk
      cases hc : d l with
      | none =>
        rw [convertEntry_absent f d l hc]
        exact h
      | some v =>
        rw [convertEntry_present f d l v hc]
        simp
    · rw [convertEntry_other f d label l hk]
      exact h

/-- Witness for C5: an hdr bias group writes exactly the two dual-gain keys, a
`"low"` group writes exactly the key `"low"`. -/
theorem C5_measurement_keys_witness :
    biasProcess "hdr" (4, 9) 0 (fun _ => none) "high (dual-gain)" = some (Real.sqrt 4) ∧
    biasProcess "hdr" (4, 9) 0 (fun _ => none) "low" = none ∧
    biasProcess "low" (4, 9) 25 (fun _ => none) "low" = some (Real.sqrt 25) ∧
    biasProcess "low" (4, 9) 25 (fun _ => none) "high" = none := by
  have h1 := (C5_measurement_keys.1 (4, 9) 0 (fun _ => none)).1
  have h2 := (C5_measurement_keys.1 (4, 9) 0 (fun _ => none)).2.2 "low" (by decide) (by decide)
  have h3 := (C5_measurement_keys.2.1 "low" (by decide) (4, 9) 25 (fun _ => none)).1
  have h4 := (C5_measurement_keys.2.1 "low" (by decide) (4, 9) 25 (fun _ => none)).2
    "high" (by decide)
  exact ⟨h1, h2, h3, h4 ⟩

/-- The bias section never appears in the report when no filename contains
`"bias"`. -/
theorem biasSection_not_mem (s : ScanResult) (hb : s.bias_present = false) :
    ReportSection.biasSection ∉ buildReport s := by
  rcases s with ⟨b, d, f⟩
  simp only at hb
  subst hb
  cases d <;> cases f <;> decide

/-- The dark section appears in the report whenever some filename contains
`"dark"`. -/
theorem darkSection_mem (s : ScanResult) (hd : s.dark_present = true) :
    ReportSection.darkSection ∈ buildReport s := by
  rcases s with ⟨b, d, f⟩
  simp only at hd
  subst hd
  cases b <;> cases f <;> decide

/-- C7: with an empty directory the program returns the distinct failure value
(no report is produced); with files present a report is always produced, and a
condition type absent from every filename only skips that section while report
generation continues (the summary page, and any other present section, is
still emitted). -/
theorem C7_empty_directory_vs_missing_condition (files : List String)
    (hne : files ≠ []) :
    standardAnalysisProducts [] = none ∧
    (∃ r, standardAnalysisProducts files = some r ∧ ReportSection.summaryPage ∈ r) ∧
    ((∀ f ∈ files, containsSub "bias" f = false) →
      ∃ r, standardAnalysisProducts files = some r ∧ ReportSection.biasSection ∉ r) ∧
    ((∀ f ∈ files, containsSub "bias" f = false) →
      (∃ f ∈ files, containsSub "dark" f = true) →
      ∃ r, standardAnalysisProducts files = some r ∧
        ReportSection.biasSection ∉ r ∧ ReportSection.darkSection ∈ r) := by
  have hpos : ¬ files.length < 1 := by
    have := List.length_pos.2 hne
    omega
  have hrun : standardAnalysisProducts files = some (buildReport (scanFiles files)) := by
    unfold standardAnalysisProducts
    rw [if_neg hpos]
  refine ⟨rfl, ⟨buildReport (scanFiles files), hrun, ?_⟩, fun hb => ?_, fun hb hd => ?_⟩
  · unfold buildReport
    exact List.mem_append_left _ (List.mem_cons_self _ _)
  · have hbias : (scanFiles files).bias_present = false := by
      simp only [scanFiles]
      rw [List.any_eq_false]
      intro x hx
      rw [hb x hx]
      simp
    exact ⟨buildReport (scanFiles files), hrun, biasSection_not_mem _ hbias⟩
  · have hbias : (scanFiles files).bias_present = false := by
      simp only [scanFiles]
      rw [List.any_eq_false]
      intro x hx
      rw [hb x hx]
      simp
    have hdark : (scanFiles files).dark_present = true := by
      simp only [scanFiles]
      rw [List.any_eq_true]
      obtain ⟨f, hf, hcf⟩ := hd
      exact ⟨f, hf, hcf⟩
    exact ⟨buildReport (scanFiles files), hrun, biasSection_not_mem _ hbias,
      darkSection_mem _ hdark⟩

/-- Witness for C7 with a single dark-frame filename. -/
theorem C7_empty_directory_vs_missing_condition_witness :
    standardAnalysisProducts [] = none ∧
    (∃ r, standardAnalysisProducts ["cam_det_dark_20240101"] = some r ∧
      ReportSection.biasSection ∉ r ∧ ReportSection.darkSection ∈ r) := by
  have h := C7_empty_directory_vs_missing_condition ["cam_det_dark_20240101"] (by decide)
  exact ⟨h.1, h.2.2.2 (by decide) ⟨"cam_det_dark_20240101", by decide, by decide⟩⟩

/-! ## Flat-analyzer control flow -/

theorem flatLoad_eq {α : Type} [LinearOrderedField α] [DecidableEq α]
    (flats : String → List (FlatFrame α)) :
    flatLoad flats =
      match processGain emptyFlatAcc "hdr" (flats "hdr") with
      | Except.error e => Except.error e
      | Except.ok a1 =>
        match processGain a1 "high" (flats "high") with
        | Except.error e => Except.error e
        | Except.ok a2 => processGain a2 "low" (flats "low") := by
  have hunfold : flatLoad flats =
      processGain emptyFlatAcc "hdr" (flats "hdr") >>= (fun a1 =>
        processGain a1 "high" (flats "high") >>= (fun a2 =>
          processGain a2 "low" (flats "low") >>= fun a3 => pure a3)) := by
    simp only [flatLoad, List.foldlM_cons, List.foldlM_nil]
  rw [hunfold]
  cases processGain emptyFlatAcc "hdr" (flats "hdr") with
  | error e => rfl
  | ok a1 =>
    show (processGain a1 "high" (flats "high") >>= (fun a2 =>
        processGain a2 "low" (flats "low") >>= fun a3 => pure a3)) =
      match processGain a1 "high" (flats "high") with
      | Except.error e => Except.error e
      | Except.ok a2 => processGain a2 "low" (flats "low")
    cases processGain a1 "high" (flats "high") with
    | error e => rfl
    | ok a2 =>
      show (processGain a2 "low" (flats "low") >>= fun a3 => pure a3) =
        processGain a2 "low" (flats "low")
      cases processGain a2 "low" (flats "low") with
      | error e => rfl
      | ok a3 => rfl

theorem processGain_nil {α : Type} [LinearOrderedField α] [DecidableEq α]
    (acc : FlatAcc α) (g : String) :
    processGain acc g [] =
      Except.error "zero-size array to reduction operation maximum" := rfl

theorem midPred_eq_false_iff {α : Type} [LinearOrderedField α] (m : α) :
    midPred m = false ↔ ¬(5000 < m ∧ m < 15000) := by
  simp [midPred, not_and]

theorem processGain_nonhdr_no_mid {α : Type} [LinearOrderedField α] [DecidableEq α]
    (acc : FlatAcc α) (g : String) (hg : g ≠ "hdr") (frames : List (FlatFrame α))
    (hmid : ∀ ff ∈ frames, midPred ff.med0 = false) :
    ∃ msg, processGain acc g frames = Except.error msg := by
  have hnone : (frames.map (fun ff => ff.med0)).findIdx? midPred = none := by
    rw [List.findIdx?_eq_none_iff]
    intro x hx
    obtain ⟨ff, hff, rfl⟩ := List.mem_map.1 hx
    exact hmid ff hff
  simp only [processGain]
  split
  · exact ⟨_, rfl⟩
  · rw [if_neg hg, hnone]
    exact ⟨_, rfl⟩

theorem processGain_hdr_no_mid {α : Type} [LinearOrderedField α] [DecidableEq α]
    (acc : FlatAcc α) (frames : List (FlatFrame α))
    (hmid : (∀ ff ∈ frames, midPred ff.med0 = false) ∨
      (∀ ff ∈ frames, midPred ff.med1 = false)) :
    ∃ msg, processGain acc "hdr" frames = Except.error msg := by
  simp only [processGain]
  split
  · exact ⟨_, rfl⟩
  · simp only [if_true]
    rcases hmid with h0 | h1
    · have hnone : (frames.map (fun ff => ff.med0)).findIdx? midPred = none := by
        rw [List.findIdx?_eq_none_iff]
        intro x hx
        obtain ⟨ff, hff, rfl⟩ := List.mem_map.1 hx
        exact h0 ff hff
      rw [hnone]
      cases (frames.map (fun ff => ff.med1)).findIdx? midPred with
      | none => exact ⟨_, rfl⟩
      | some lmid => exact ⟨_, rfl⟩
    · have hnone : (frames.map (fun ff => ff.med1)).findIdx? midPred = none := by
        rw [List.findIdx?_eq_none_iff]
        intro x hx
        obtain ⟨ff, hff, rfl⟩ := List.mem_map.1 hx
        exact h1 ff hff
      rw [hnone]
      cases (frames.map (fun ff => ff.med0)).findIdx? midPred with
      | none => exact ⟨_, rfl⟩
      | some hmid2 => exact ⟨_, rfl⟩

/-- C6: if for some channel no flat exposure has median signal strictly inside
(5000, 15000) ADU, the flat analyzer fails hard with an index-not-found error
for that run — `flatLoad` surfaces an error and never continues to a success
value. -/
theorem C6_no_midrange_hard_failure (flats : String → List (FlatFrame ℚ))
    (h : (∀ ff ∈ flats "hdr", ¬(5000 < ff.med0 ∧ ff.med0 < 15000)) ∨
         (∀ ff ∈ flats "hdr", ¬(5000 < ff.med1 ∧ ff.med1 < 15000)) ∨
         (∀ ff ∈ flats "high", ¬(5000 < ff.med0 ∧ ff.med0 < 15000)) ∨
         (∀ ff ∈ flats "low", ¬(5000 < ff.med0 ∧ ff.med0 < 15000))) :
    ∃ msg, flatLoad flats = Except.error msg := by
  rw [flatLoad_eq]
  rcases h with h | h | h | h
  · obtain ⟨msg, hA⟩ := processGain_hdr_no_mid emptyFlatAcc (flats "hdr")
      (Or.inl (fun ff hff => (midPred_eq_false_iff ff.med0).2 (h ff hff)))
    rw [hA]
    exact ⟨msg, rfl⟩
  · obtain ⟨msg, hA⟩ := processGain_hdr_no_mid emptyFlatAcc (flats "hdr")
      (Or.inr (fun ff hff => (midPred_eq_false_iff ff.med1).2 (h ff hff)))
    rw [hA]
    exact ⟨msg, rfl⟩
  · split
    next e heq => exact ⟨e, rfl⟩
    next a1 heq =>
      obtain ⟨msg, hB⟩ := processGain_nonhdr_no_mid a1 "high" (by decide) (flats "high")
        (fun ff hff => (midPred_eq_false_iff ff.med0).2 (h ff hff))
      rw [hB]
      exact ⟨msg, rfl⟩
  · split
    next e heq => exact ⟨e, rfl⟩
    next a1 heq =>
      split
      next e2 heq2 => exact ⟨e2, rfl⟩
      next a2 heq2 =>
        obtain ⟨msg, hC⟩ := processGain_nonhdr_no_mid a2 "low" (by decide) (flats "low")
          (fun ff hff => (midPred_eq_false_iff ff.med0).2 (h ff hff))
        exact ⟨msg, hC⟩

/-- Witness for C6: a flat set whose `"high"`-gain exposures have medians 100
and 20000 only (none strictly inside (5000, 15000)) makes the whole flat
analysis fail. -/
theorem C6_no_midrange_hard_failure_witness :
    ∃ msg, flatLoad (fun g =>
      if g = "high" then
        [⟨1, [100], [100], 100, 100, 1, 1⟩, ⟨2, [20000], [20000], 20000, 20000, 2, 2⟩]
      else ([⟨1, [7000], [7000], 7000, 7000, 1, 1⟩] : List (FlatFrame ℚ)))
      = Except.error msg := by
  apply C6_no_midrange_hard_failure
  right; right; left
  intro ff hff
  simp only [List.mem_cons, List.mem_singleton, List.not_mem_nil, or_false,
    reduceIte] at hff
  rcases hff with h | h <;> subst h <;> decide

theorem flatLoad_ok_label {α : Type} [LinearOrderedField α] [DecidableEq α]
    (flats : String → List (FlatFrame α)) (acc : FlatAcc α)
    (h : flatLoad flats = Except.ok acc) :
    acc.gain_label = ["high (dual-gain)", "low (dual-gain)", "high", "low"] := by
  rw [flatLoad_eq] at h
  split at h
  next e heq => exact absurd h (by simp)
  next a1 heq1 =>
    split at h
    next e heq => exact absurd h (by simp)
    next a2 heq2 =>
      have l1 := processGain_ok_label _ _ _ _ heq1
      have l2 := processGain_ok_label _ _ _ _ heq2
      have l3 := processGain_ok_label _ _ _ _ h
      rw [l3, l2, l1]
      rw [if_pos rfl, if_neg (by decide), if_neg (by decide)]
      rfl

/-- C10: when flat files are present all three gain modes `hdr`, `high`, `low`
are loaded unconditionally, a successful load always yields exactly the four
channels iterated by the PTC loop `for j in range(4)`, and an empty frame list
for any one of the three gain modes aborts the flat analysis with an error
instead of skipping that gain mode. -/
theorem C10_flat_fixed_gains (flats : String → List (FlatFrame ℚ)) :
    (∀ acc, flatLoad flats = Except.ok acc →
      acc.gain_label = ["high (dual-gain)", "low (dual-gain)", "high", "low"] ∧
      acc.gain_label.length = (List.range 4).length) ∧
    (∀ g, g ∈ (["hdr", "high", "low"] : List String) → flats g = [] →
      ∃ msg, flatLoad flats = Except.error msg) := by
  constructor
  · intro acc h
    have hl := flatLoad_ok_label flats acc h
    exact ⟨hl, by rw [hl]; rfl⟩
  · intro g hg hempty
    rw [flatLoad_eq]
    have hg3 : g = "hdr" ∨ g = "high" ∨ g = "low" := by
      simpa using hg
    rcases hg3 with rfl | rfl | rfl
    · rw [hempty, processGain_nil]
      exact ⟨_, rfl⟩
    · split
      next e heq => exact ⟨e, rfl⟩
      next a1 heq =>
        rw [hempty, processGain_nil]
        exact ⟨_, rfl⟩
    · split
      next e heq => exact ⟨e, rfl⟩
      next a1 heq =>
        split
        next e2 heq2 => exact ⟨e2, rfl⟩
        next a2 heq2 =>
          rw [hempty, processGain_nil]
          exact ⟨_, rfl⟩

/-- Witness for C10: a one-frame flat set per gain mode loads successfully with
exactly the four channel labels; an all-empty directory of flat frames errors. -/
theorem C10_flat_fixed_gains_witness :
    (∃ acc, flatLoad (fun _ => [(⟨1, [7000], [7000], 7000, 7000, 1, 1⟩ : FlatFrame ℚ)]) =
        Except.ok acc ∧
      acc.gain_label = ["high (dual-gain)", "low (dual-gain)", "high", "low"]) ∧
    (∃ msg, flatLoad (fun _ => ([] : List (FlatFrame ℚ))) = Except.error msg) := by
  constructor
  · cases hE : flatLoad (fun _ => [(⟨1, [7000], [7000], 7000, 7000, 1, 1⟩ : FlatFrame ℚ)]) with
    | error e =>
      have hok : (flatLoad
          (fun _ => [(⟨1, [7000], [7000], 7000, 7000, 1, 1⟩ : FlatFrame ℚ)])).isOk = true := by
        decide
      rw [hE] at hok
      exact absurd hok (by simp [Except.isOk, Except.toBool])
    | ok acc =>
      exact ⟨acc, rfl, ((C10_flat_fixed_gains _).1 acc hE).1⟩
  · exact (C10_flat_fixed_gains (fun _ => [])).2 "hdr" (by decide) rfl

/-- C4: the mid-range exposure for a channel is the first (in sequence order)
whose median signal lies strictly between 5000 and 15000 ADU — medians equal
to 5000 or 15000 are never classified mid-range — and the PTC fit's
unsaturated set contains exactly the samples with median signal strictly below
15000, so a sample at exactly 15000 is excluded. -/
theorem C4_midrange_strict_boundaries :
    (∀ (m : ℚ), midPred m = true ↔ (5000 < m ∧ m < 15000)) ∧
    (∀ (medians : List ℚ) (i : Nat), medians.findIdx? midPred = some i →
      i < medians.length ∧ (5000 < medians.getD i 0 ∧ medians.getD i 0 < 15000) ∧
      ∀ j, j < i → ¬(5000 < medians.getD j 0 ∧ medians.getD j 0 < 15000)) ∧
    (∀ (medians : List ℚ) (i : Nat),
      (medians.getD i 0 = 5000 ∨ medians.getD i 0 = 15000) →
      medians.findIdx? midPred ≠ some i) ∧
    (∀ (med v : List ℚ) (p : ℚ × ℚ),
      p ∈ unsatFilter med v ↔ p ∈ med.zip v ∧ p.1 < 15000) ∧
    (∀ (med v : List ℚ) (p : ℚ × ℚ), p.1 = 15000 → p ∉ unsatFilter med v) := by
  have hgd : ∀ (medians : List ℚ) (j : Nat) (hj : j < medians.length),
      medians.getD j 0 = medians.get ⟨j, hj⟩ := by
    intro medians j hj
    rw [List.getD_eq_getElem?_getD, List.getElem?_eq_getElem hj]
    rfl
  have hmain : ∀ (medians : List ℚ) (i : Nat), medians.findIdx? midPred = some i →
      i < medians.length ∧ (5000 < medians.getD i 0 ∧ medians.getD i 0 < 15000) ∧
      ∀ j, j < i → ¬(5000 < medians.getD j 0 ∧ medians.getD j 0 < 15000) := by
    intro medians i h
    rw [List.findIdx?_eq_some_iff_getElem] at h
    obtain ⟨hlt, hp, hprev⟩ := h
    refine ⟨hlt, ?_, ?_⟩
    · rw [hgd medians i hlt]
      simpa [midPred] using hp
    · intro j hj
      rw [hgd medians j (Nat.lt_trans hj hlt)]
      have := hprev j hj
      simpa [midPred] using this
  have hfilter : ∀ (med v : List ℚ) (p : ℚ × ℚ),
      p ∈ unsatFilter med v ↔ p ∈ med.zip v ∧ p.1 < 15000 := by
    intro med v p
    unfold unsatFilter
    rw [List.mem_filter]
    simp
  refine ⟨fun m => by simp [midPred], hmain, fun medians i hv h => ?_, hfilter,
    fun med v p hp hmem => ?_⟩
  · have h2 := (hmain medians i h).2.1
    rcases hv with h5 | h5 <;> rw [h5] at h2
    · exact lt_irrefl _ h2.1
    · exact lt_irrefl _ h2.2
  · have := ((hfilter med v p).1 hmem).2
    rw [hp] at this
    exact lt_irrefl _ this

/-- Witness for C4: in medians `[5000, 15000, 7000]` the first mid-range index
is 2 (the exact-boundary values are skipped), and a sample at exactly 15000 is
excluded from the unsaturated set. -/
theorem C4_midrange_strict_boundaries_witness :
    ([(5000 : ℚ), 15000, 7000].findIdx? midPred = some 2) ∧
    (5000 < ([(5000 : ℚ), 15000, 7000].getD 2 0) ∧
      ([(5000 : ℚ), 15000, 7000].getD 2 0) < 15000) ∧
    ([(5000 : ℚ), 15000, 7000].findIdx? midPred ≠ some 0) ∧
    (((15000 : ℚ), 3) ∉ unsatFilter [(15000 : ℚ)] [3]) := by
  refine ⟨by decide, ?_, ?_, ?_⟩
  · exact (C4_midrange_strict_boundaries.2.1 [(5000 : ℚ), 15000, 7000] 2 (by decide)).2.1
  · exact C4_midrange_strict_boundaries.2.2.1 [(5000 : ℚ), 15000, 7000] 0
      (Or.inl (by decide))
  · exact C4_midrange_strict_boundaries.2.2.2.2 [(15000 : ℚ)] [3] ((15000 : ℚ), 3) rfl

/-! ## PTC fit outcome handling -/

theorem ptcChannel_ok (fitRun : List ℝ → List ℝ → FitResult) (label : String)
    (med v : List ℝ) (m : Meas) (nf : ℝ)
    (hmin : ((unsatFilter med v).map Prod.snd).min? = some nf) :
    ptcChannel fitRun label med v m = Except.ok (gainConvert label
      (5000 / ptcModel (fitRun ((unsatFilter med v).map Prod.fst)
        (((unsatFilter med v).map Prod.snd).map (fun x => x - nf))).amplitude 5000) m) := by
  simp only [ptcChannel]
  rw [hmin]

/-- C9 counterexample: a fit outcome reporting non-convergence
(`converged = false`) still yields a recorded gain — the channel's
`det_gain` entry is written with the value computed from the returned model,
refuting "treated as fatal, no gain value recorded". -/
theorem C9_counterexample :
    ptcChannel (fun _ _ => ⟨1, false⟩) "high" [100] [7] measEmpty =
      Except.ok (gainConvert "high" 1 measEmpty) ∧
    (gainConvert "high" 1 measEmpty).det_gain "high" = some 1 := by
  have hfilter : unsatFilter [(100 : ℝ)] [7] = [((100 : ℝ), 7)] := by
    show List.filter (fun q => decide (q.1 < 15000)) [((100 : ℝ), (7 : ℝ))] =
      [((100 : ℝ), 7)]
    rw [List.filter_cons, if_pos (by rw [decide_eq_true_eq]; norm_num)]
    rfl
  have hmin : ((unsatFilter [(100 : ℝ)] [7]).map Prod.snd).min? = some 7 := by
    rw [hfilter]
    rfl
  have hk : (5000 : ℝ) / ptcModel 1 5000 = 1 := by
    unfold ptcModel
    norm_num
  constructor
  · rw [ptcChannel_ok (fun _ _ => ⟨1, false⟩) "high" [100] [7] measEmpty 7 hmin]
    rw [show ((fun (_ _ : List ℝ) => (⟨1, false⟩ : FitResult)) ((unsatFilter [(100 : ℝ)] [7]).map Prod.fst)
        (((unsatFilter [(100 : ℝ)] [7]).map Prod.snd).map (fun x => x - 7))).amplitude = (1 : ℝ) from rfl]
    rw [hk]
  · exact setKey_same measEmpty.det_gain "high" 1

/-- C9 amended: when the nonlinear fit does not converge within the
100-iteration cap the external fitter returns the best-so-far model with a
warning; the analyzer performs no convergence check, so the channel is not
treated as fatal and `det_gain[label] = 5000 / model(5000)` computed from the
returned amplitude is recorded regardless. -/
theorem C9_fit_nonconvergence_amended (fr : FitResult) (label : String)
    (med v : List ℝ) (m : Meas) (_hconv : fr.converged = false)
    (hne : unsatFilter med v ≠ []) :
    ∃ nf, ptcChannel (fun _ _ => fr) label med v m =
      Except.ok (gainConvert label (5000 / ptcModel fr.amplitude 5000) m) ∧
    (gainConvert label (5000 / ptcModel fr.amplitude 5000) m).det_gain label =
      some (5000 / ptcModel fr.amplitude 5000) ∧
    ((unsatFilter med v).map Prod.snd).min? = some nf := by
  have hvv : (unsatFilter med v).map Prod.snd ≠ [] := by
    simpa using hne
  cases hmin : ((unsatFilter med v).map Prod.snd).min? with
  | none => exact absurd (List.min?_eq_none_iff.1 hmin) hvv
  | some nf =>
    refine ⟨nf, ?_, ?_, rfl⟩
    · rw [ptcChannel_ok (fun _ _ => fr) label med v m nf hmin]
    · exact setKey_same m.det_gain label _

/-- Witness for C9's amended statement at the concrete non-converged outcome
with amplitude 1. -/
theorem C9_fit_nonconvergence_amended_witness :
    ∃ nf, ptcChannel (fun _ _ => (⟨1, false⟩ : FitResult)) "high" [100] [7] measEmpty =
      Except.ok (gainConvert "high" (5000 / ptcModel 1 5000) measEmpty) ∧
    (gainConvert "high" (5000 / ptcModel 1 5000) measEmpty).det_gain "high" =
      some (5000 / ptcModel 1 5000) ∧
    ((unsatFilter [(100 : ℝ)] [7]).map Prod.snd).min? = some nf := by
  apply C9_fit_nonconvergence_amended (⟨1, false⟩ : FitResult) "high" [100] [7] measEmpty rfl
  intro h
  have : (((100 : ℝ), (7 : ℝ))) ∈ unsatFilter [(100 : ℝ)] [7] := by
    show ((100 : ℝ), (7 : ℝ)) ∈
      List.filter (fun q => decide (q.1 < 15000)) [((100 : ℝ), (7 : ℝ))]
    rw [List.mem_filter]
    exact ⟨List.mem_singleton.2 rfl, by rw [decide_eq_true_eq]; norm_num⟩
  rw [h] at this
  exact List.not_mem_nil _ this

end CmostAnalysis
